import Mathlib

/-!
Verification development for the conversation tool-invocation orchestrator of
`src/chat-ui/src/services/conversations.ts` (the `ApiChatLlm` implementation on
top of the OpenAI chat-completions API).

The TypeScript is embedded shallowly: every definition below mirrors one
function or type of the source file, with asynchronous I/O collaborators
(the HTTP transport, the catalog resolver) passed in as explicit function
arguments, and JavaScript dynamic values (`unknown` / `any`) represented by a
small universe type `Unk`.  Out-of-repository library calls
(`JSON.parse`, `JSON.stringify`, `yaml.stringify`) are represented by total
stand-in serializers whose exact output no statement depends on.
-/

namespace ChatLlm

/-- The `FunctionDefinition` type from the OpenAI client: a named, described
callable tool.  Its JSON-schema `parameters` field is carried by no statement
below and is not modelled. -/
structure FunctionDefinition where
  name : String
  description : String := ""
deriving Repr, DecidableEq

/-- `PersistedFunctionDefinition`: a stored function definition.  The
`PersistedHttpRequestFunctionDefinition` variant additionally carries the HTTP
verb and resource path; both are modelled as defaulted fields, which non-HTTP
definitions leave empty (the window logic reads only `definition.name`). -/
structure PersistedFunctionDefinition where
  definition : FunctionDefinition
  httpVerb : String := ""
  path : String := ""
deriving Repr, DecidableEq

/-- Universe of JavaScript `unknown` values crossing the dispatcher: plain
text, opaque structured data (tagged by its source text), and catalog-search
results (arrays of persisted function definitions). -/
inductive Unk where
  | str (s : String)
  | obj (tag : String)
  | actions (l : List PersistedFunctionDefinition)
deriving Repr, DecidableEq

/-- Stand-in for the JavaScript `JSON.parse` builtin applied to a tool-call
argument payload: the parsed structured value is opaque in this embedding and
is tagged by its source text.  (Parse failures, which the source would raise
as exceptions, are not exercised by any claim.) -/
def jsonParse (s : String) : Unk := Unk.obj s

/-- Stand-in for the JavaScript `JSON.stringify` builtin: a total text
serialization of a non-string value. -/
def jsonStringify : Unk → String
  | Unk.str s => "\x22" ++ s ++ "\x22"
  | Unk.obj tag => tag
  | Unk.actions l =>
      "[" ++ String.intercalate "," (l.map (fun a => a.definition.name)) ++ "]"

/-- `HttpRequestArgs`: the static request context a caller supplies once per
conversation (headers, body, path parameters, query parameters), each field
optional structured data. -/
structure HttpRequestArgs where
  headers : Option Unk := none
  body : Option Unk := none
  pathParameters : Option Unk := none
  queryParameters : Option Unk := none
deriving Repr, DecidableEq

/-- `HttpApiCredentials`: opaque authentication material, passed through to
dynamic tool execution and never inspected by the orchestrator. -/
structure HttpApiCredentials where
  secret : String := ""
deriving Repr, DecidableEq

/-- The fully assembled downstream HTTP request handed to the external
transport: verb and path from the tool definition, the static request
context, the parsed model-supplied arguments, and the credentials. -/
structure HttpRequest where
  httpVerb : String
  resourcePath : String
  staticHttpRequestArgs : HttpRequestArgs
  dynamicHttpRequestArgs : Unk
  apiCredentials : HttpApiCredentials

/-- Modelled from the spec: parsing of the model-supplied argument payload as
structured data (the source performs this inside `executeHttpApiRequest.ts`,
which is not part of the provided sources).  A payload still in raw text form
is parsed; already structured data is kept. -/
def parseArgumentPayload : Unk → Unk
  | Unk.str s => jsonParse s
  | v => v

/-- Modelled from the spec: `executeHttpApiRequest` (its source file is not
under the provided sources; only its call site is).  Per the spec it parses
the model-supplied argument payload, merges it with the static request context
and the credentials, and performs the downstream HTTP call with the verb and
path taken from the tool definition.  The transport itself is an external
collaborator, passed as a function. -/
def executeHttpApiRequest (transport : HttpRequest → Unk) (httpVerb : String)
    (resourcePath : String) (staticHttpRequestArgs : HttpRequestArgs)
    (dynamicHttpRequestArgs : Unk) (apiCredentials : HttpApiCredentials) : Unk :=
  transport
    { httpVerb := httpVerb
      resourcePath := resourcePath
      staticHttpRequestArgs := staticHttpRequestArgs
      dynamicHttpRequestArgs := parseArgumentPayload dynamicHttpRequestArgs
      apiCredentials := apiCredentials }

/-- `ChatGptLlmFunction`: a function callable by the LLM, wrapping a persisted
definition with the callable itself; `dynamic` marks functions discovered at
runtime via catalog search (optional in the source, hence defaulted to
`false`). -/
structure ChatGptLlmFunction where
  persistedFunction : PersistedFunctionDefinition
  function : Unk → Unk
  dynamic : Bool := false
  name : String

/-- `makeFindApiSpecAction`: the reserved catalog-search tool.  The catalog
resolver is an external collaborator returning an ordered list of persisted
function definitions. -/
def makeFindApiSpecAction
    (findApiSpecFunctionDefinition : Unk → List PersistedFunctionDefinition) :
    ChatGptLlmFunction :=
  { name := "find_api_spec_action"
    persistedFunction :=
      { definition :=
          { name := "find_api_spec_action"
            description := "Find an action in the API spec" } }
    function := fun args => Unk.actions (findApiSpecFunctionDefinition args) }

/-- `makeDynamicHttpLlmFunctionFromFunctionDefinition`: wraps a persisted HTTP
function definition into a dynamic LLM function whose callable performs the
downstream HTTP request with the verb and path of the definition, the static
request context and the credentials. -/
def makeDynamicHttpLlmFunctionFromFunctionDefinition
    (transport : HttpRequest → Unk)
    (persistedFunctionDefinition : PersistedFunctionDefinition)
    (staticHttpRequestArgs : HttpRequestArgs)
    (apiCredentials : HttpApiCredentials) : ChatGptLlmFunction :=
  { name := persistedFunctionDefinition.definition.name
    persistedFunction := persistedFunctionDefinition
    function := fun dynamicHttpRequestArgs =>
      executeHttpApiRequest transport persistedFunctionDefinition.httpVerb
        persistedFunctionDefinition.path staticHttpRequestArgs
        dynamicHttpRequestArgs apiCredentials
    dynamic := true }

/-- A pending tool-call request carried on an assistant message: the requested
function name and the raw JSON text of its arguments. -/
structure FunctionCall where
  name : String
  arguments : String
deriving Repr, DecidableEq

/-- `OpenAiChatMessage`: one conversation message.  `functions` is the
snapshot of persisted tool definitions attached to the message, from which the
next turn recomputes its active set. -/
structure OpenAiChatMessage where
  role : String
  content : String
  name : Option String := none
  functionCall : Option FunctionCall := none
  functions : Option (List PersistedFunctionDefinition) := none
deriving Repr, DecidableEq

/-- The dedup pass of `getMaxAvailableFunctionDefinitions`: the source filters
with a mutable `Set<string>` of names already seen, keeping the first
occurrence of every name.  The seen set is threaded explicitly. -/
def filterUniqueByName :
    List String → List PersistedFunctionDefinition → List PersistedFunctionDefinition
  | _, [] => []
  | seen, fxn :: rest =>
    if seen.contains fxn.definition.name then
      filterUniqueByName seen rest
    else
      fxn :: filterUniqueByName (fxn.definition.name :: seen) rest

/-- The merged, deduplicated active set: base function definitions concatenated
before the carried ones, first occurrence of each name kept (the
`availableFunctionsCopy` array of the source). -/
def mergedUniqueFunctionDefinitions
    (baseFunctionDefinitions availableFunctionDefinitions :
      List PersistedFunctionDefinition) : List PersistedFunctionDefinition :=
  filterUniqueByName [] (baseFunctionDefinitions ++ availableFunctionDefinitions)

/-- The eviction filter of `getMaxAvailableFunctionDefinitions`: the source
filters the reversed list with a mutable counter starting at 0, including a
function iff the counter is still at most the cap or the function is not a
base function, and incrementing the counter for every element regardless. -/
def evictionPass (baseFunctionDefinitions : List PersistedFunctionDefinition)
    (maxNumDynamicFunctions : Nat) :
    Nat → List PersistedFunctionDefinition → List PersistedFunctionDefinition
  | _, [] => []
  | counter, llmFunc :: rest =>
    let toInclude : Bool :=
      decide (counter ≤ maxNumDynamicFunctions) ||
        (baseFunctionDefinitions.find? (fun baseFunc =>
          baseFunc.definition.name == llmFunc.definition.name)).isNone
    if toInclude then
      llmFunc ::
        evictionPass baseFunctionDefinitions maxNumDynamicFunctions (counter + 1) rest
    else
      evictionPass baseFunctionDefinitions maxNumDynamicFunctions (counter + 1) rest

/-- `getMaxAvailableFunctionDefinitions`: merge base and carried function
definitions, deduplicate by name keeping the first occurrence, and—when the
carried (pre-dedup) count exceeds the cap—run the eviction filter over the
reversed list and reverse the result back. -/
def getMaxAvailableFunctionDefinitions
    (availableFunctionDefinitions baseFunctionDefinitions :
      List PersistedFunctionDefinition)
    (maxNumDynamicFunctions : Nat) : List PersistedFunctionDefinition :=
  let availableFunctionsCopy :=
    mergedUniqueFunctionDefinitions baseFunctionDefinitions availableFunctionDefinitions
  if availableFunctionDefinitions.length > maxNumDynamicFunctions then
    (evictionPass baseFunctionDefinitions maxNumDynamicFunctions 0
      availableFunctionsCopy.reverse).reverse
  else
    availableFunctionsCopy

/-- `makeAvailableLlmFunctionsFromFunctionDefinitions`: window the persisted
definitions through `getMaxAvailableFunctionDefinitions`, then wrap each
surviving definition—reusing the base LLM function when the name matches a
base one, and otherwise building a dynamic HTTP LLM function. -/
def makeAvailableLlmFunctionsFromFunctionDefinitions
    (transport : HttpRequest → Unk)
    (functionDefinitions : List PersistedFunctionDefinition)
    (baseLlmFunctions : List ChatGptLlmFunction)
    (staticHttpRequestArgs : HttpRequestArgs)
    (maxNumDynamicFunctions : Nat)
    (apiCredentials : HttpApiCredentials) : List ChatGptLlmFunction :=
  let availableFunctionDefinitions :=
    getMaxAvailableFunctionDefinitions functionDefinitions
      (baseLlmFunctions.map (fun f => f.persistedFunction)) maxNumDynamicFunctions
  availableFunctionDefinitions.map (fun functionDefinition =>
    match baseLlmFunctions.find? (fun baseFunction =>
        baseFunction.name == functionDefinition.definition.name) with
    | some baseLlmFunction => baseLlmFunction
    | none =>
      makeDynamicHttpLlmFunctionFromFunctionDefinition transport
        functionDefinition staticHttpRequestArgs apiCredentials)

/-- Stand-in for the external `yaml.stringify` library call: a structured
key/value text serialization.  No statement below depends on its exact
output. -/
def yamlStringify : Unk → String
  | Unk.str s => s
  | Unk.obj tag => tag
  | Unk.actions l =>
      String.intercalate "\n" (l.map (fun a => "- " ++ a.definition.name))

/-- `makeUserSystemPromptContext`: the static-request-context block appended to
the system prompt — one line-labelled section per populated field, in the
fixed order headers, request body, path parameters, query parameters, each
serialized and trimmed, the whole block trimmed of trailing whitespace. -/
def makeUserSystemPromptContext (staticHttpRequestArgs : HttpRequestArgs) : String :=
  ("The following information is available for you to use for calling functions:\n" ++
    (match staticHttpRequestArgs.headers with
     | some headers => "Headers:\n" ++ (yamlStringify headers).trim ++ "\n"
     | none => "") ++
    (match staticHttpRequestArgs.body with
     | some body => "Request body:\n" ++ (yamlStringify body).trim ++ "\n"
     | none => "") ++
    (match staticHttpRequestArgs.pathParameters with
     | some pathParameters =>
        "Path parameters:\n" ++ (yamlStringify pathParameters).trim ++ "\n"
     | none => "") ++
    (match staticHttpRequestArgs.queryParameters with
     | some queryParameters =>
        "Query parameters:\n" ++ (yamlStringify queryParameters).trim ++ "\n"
     | none => "") ++
    "\n  ").trimRight

/-- `makeSystemPrompt`: start from the base system prompt; when any active
function is dynamic, append the tool-usage instruction block naming the
dynamic functions; when static request context is supplied, append the context
block. -/
def makeSystemPrompt (baseSystemPrompt : String)
    (currentFunctions : List ChatGptLlmFunction)
    (staticHttpRequestArgs : Option HttpRequestArgs) : String :=
  let dynamicFuncs := currentFunctions.filter (fun f => f.dynamic)
  let systemPrompt :=
    if dynamicFuncs.length > 0 then
      baseSystemPrompt ++
        "Call the functions " ++
        String.intercalate ", "
          (dynamicFuncs.map (fun func => func.persistedFunction.definition.name)) ++
        " only when you have all necessary parameters to complete the action.\nIf you don\x27t yet have all the necessary information, continue asking the user for more information until you have it all.\nIf you have the necessary information, call the function and then append the function\x27s response to the conversation."
    else
      baseSystemPrompt
  match staticHttpRequestArgs with
  | some args => systemPrompt ++ "\n" ++ makeUserSystemPromptContext args
  | none => systemPrompt

/-- `updateConversationWithNewSystemPrompt`: one fresh system message followed
by every prior non-system message, and — when the optional query is truthy in
the JavaScript sense (present and non-empty) — one trailing user message. -/
def updateConversationWithNewSystemPrompt (baseSystemPrompt : String)
    (availableLlmFunctions : List ChatGptLlmFunction)
    (messages : List OpenAiChatMessage) (query : Option String)
    (staticHttpRequestArgs : Option HttpRequestArgs) : List OpenAiChatMessage :=
  let currentMessages : List OpenAiChatMessage :=
    { role := "system"
      content := makeSystemPrompt baseSystemPrompt availableLlmFunctions
        staticHttpRequestArgs } ::
      messages.filter (fun message => message.role != "system")
  match query with
  | some q =>
    if q != "" then currentMessages ++ [{ role := "user", content := q }]
    else currentMessages
  | none => currentMessages

/-- One choice of a chat-completions response, optionally carrying a message. -/
structure ChatCompletionChoice where
  message : Option OpenAiChatMessage := none
deriving Repr, DecidableEq

/-- A chat-completions response: a list of choices. -/
structure ChatCompletions where
  choices : List ChatCompletionChoice
deriving Repr, DecidableEq

/-- `getChatMessageFromOpenAiResponse`: the first choice's message, or the
thrown error (modelled with `Except`) when there is no first choice or the
first choice carries no message. -/
def getChatMessageFromOpenAiResponse (chatChatCompletions : ChatCompletions) :
    Except String OpenAiChatMessage :=
  match chatChatCompletions.choices.head? with
  | none => Except.error "No message returned from OpenAI API"
  | some choice =>
    match choice.message with
    | none => Except.error "No message returned from OpenAI API"
    | some message => Except.ok message

/-- The content of a dynamic function-result message: the response itself when
it is already text, its serialization otherwise (the source's
`typeof functionResponse === "string"` branch). -/
def functionResponseContent : Unk → String
  | Unk.str s => s
  | other => jsonStringify other

/-- The function-result content announcing catalog-search hits, naming each
found function. -/
def foundApiSpecActionsContent
    (apiSpecActions : List PersistedFunctionDefinition) : String :=
  "Found the following function(s) to use:\n- " ++
    String.intercalate "\n- " (apiSpecActions.map (fun axn => axn.definition.name)) ++
    "\n\nThey have been added to your set of available functions. Execute the function if you have sufficient data. If you need more data, ask the user for it."

/-- The function-result content for an empty catalog-search result. -/
def noApiSpecActionContent : String :=
  "No function found in the API spec. Try asking the user for more information."

/-- The unchecked `as PersistedFunctionDefinition[]` cast the source applies to
the catalog resolver's result; a non-array value (which this code path never
produces) is read as the empty list. -/
def asPersistedFunctionList : Unk → List PersistedFunctionDefinition
  | Unk.actions l => l
  | _ => []

/-- `handleOpenAiFunctionCall`: dispatch one tool-call request.  The source
asserts the response message indeed carries a function call (modelled as the
`Except.error` branch), resolves the requested name against the available
functions, and then: executes a matched dynamic function and appends the echo
and its result; or executes the reserved `find_api_spec_action` and appends
the echo and a result whose attached functions grow by the found definitions;
or — when nothing matches — returns the conversation unchanged. -/
def handleOpenAiFunctionCall (responseMessage : OpenAiChatMessage)
    (availableLlmFunctions : List ChatGptLlmFunction)
    (newMessages : List OpenAiChatMessage) :
    Except String (List OpenAiChatMessage) :=
  match responseMessage.functionCall with
  | none =>
    Except.error "No function call returned from OpenAI. This function should only be called if it is validated that the response message has the functionCall property."
  | some functionCall =>
    match availableLlmFunctions.find? (fun f =>
        f.persistedFunction.definition.name == functionCall.name) with
    | none => Except.ok newMessages
    | some functionToCall =>
      if functionToCall.dynamic then
        let functionResponse :=
          functionToCall.function (Unk.str functionCall.arguments)
        Except.ok (newMessages ++ [responseMessage,
          { role := "function"
            name := some functionToCall.name
            content := functionResponseContent functionResponse
            functions :=
              some (availableLlmFunctions.map (fun f => f.persistedFunction)) }])
      else if functionToCall.name == "find_api_spec_action" then
        let apiSpecActions :=
          asPersistedFunctionList
            (functionToCall.function (jsonParse functionCall.arguments))
        Except.ok (newMessages ++ [responseMessage,
          { role := "function"
            name := some functionToCall.name
            content :=
              if apiSpecActions.length != 0 then
                foundApiSpecActionsContent apiSpecActions
              else
                noApiSpecActionContent
            functions :=
              some (availableLlmFunctions.map (fun fxn => fxn.persistedFunction) ++
                apiSpecActions) }])
      else
        Except.ok newMessages

/-- The tool-list computation opening `answerAwaited`: the carried persisted
definitions are read from the final message of the conversation
(`messages[messages.length - 1].functions ?? []`) and windowed into the
available LLM functions.  The JavaScript last-element access is out of bounds
for an empty conversation; the total embedding returns `none` there. -/
def answerAwaitedAvailableLlmFunctions (transport : HttpRequest → Unk)
    (baseFunctions : List ChatGptLlmFunction)
    (maxNumDynamicFunctions : Nat)
    (staticHttpRequestArgs : Option HttpRequestArgs)
    (apiCredentials : HttpApiCredentials)
    (messages : List OpenAiChatMessage) : Option (List ChatGptLlmFunction) :=
  match messages.getLast? with
  | none => none
  | some lastMessage =>
    some (makeAvailableLlmFunctionsFromFunctionDefinitions transport
      (lastMessage.functions.getD []) baseFunctions
      (staticHttpRequestArgs.getD {}) maxNumDynamicFunctions apiCredentials)

/-- Deduplication exactly as the specification words it: keep the first
occurrence of every name, dropping the later ones. -/
def dedupByNameKeepFirst :
    List PersistedFunctionDefinition → List PersistedFunctionDefinition
  | [] => []
  | f :: rest =>
    f :: dedupByNameKeepFirst
      (rest.filter (fun g => g.definition.name != f.definition.name))
termination_by l => l.length
decreasing_by
  simp only [List.length_cons]
  exact Nat.lt_succ_of_le (List.length_filter_le _ _)

/-- A tool is a base tool when its name appears among the base tools. -/
def isBaseTool (baseTools : List PersistedFunctionDefinition)
    (tool : PersistedFunctionDefinition) : Bool :=
  baseTools.any (fun baseTool => baseTool.definition.name == tool.definition.name)

/-- The ToolWindowManager algorithm exactly as the specification words it:
deduplicate the merge of base tools and carried tools keeping the first
occurrence of each name; when the carried pre-dedup count exceeds the cap,
process the deduplicated list in reverse with a counter starting at 0 — the
counter being the position in the reversed list — including a tool iff the
counter is at most the cap or the tool is not a base tool, and reverse the
result back; otherwise return the deduplicated merge unchanged. -/
def computeActiveToolsSpec
    (lastActiveTools baseTools : List PersistedFunctionDefinition)
    (maxDynamic : Nat) : List PersistedFunctionDefinition :=
  let merged := dedupByNameKeepFirst (baseTools ++ lastActiveTools)
  if lastActiveTools.length > maxDynamic then
    ((merged.reverse.enum.filter (fun indexedTool =>
        decide (indexedTool.1 ≤ maxDynamic) ||
          !(isBaseTool baseTools indexedTool.2))).map Prod.snd).reverse
  else
    merged

/-- A carried tool list of four distinct dynamic definitions, used as the
failing input for the base-presence invariant. -/
def starvedBaseInputCarried : List PersistedFunctionDefinition :=
  [ { definition := { name := "a1" } }, { definition := { name := "a2" } },
    { definition := { name := "a3" } }, { definition := { name := "a4" } } ]

/-- The names of the active LLM functions computed for a turn that carries
`starvedBaseInputCarried` with the default cap of 3 and the standard base
function list. -/
def starvedBaseInputActiveNames : List String :=
  (makeAvailableLlmFunctionsFromFunctionDefinitions (fun _ => Unk.str "")
    starvedBaseInputCarried [makeFindApiSpecAction (fun _ => [])] {} 3 {}).map
    (fun f => f.name)

/-- A catalog resolver returning the tools `getWeather` and `bookFlight` for
every query, used to exercise the search-expansion scenario. -/
def travelSearchResolver : Unk → List PersistedFunctionDefinition :=
  fun _ =>
    [ { definition := { name := "getWeather" } },
      { definition := { name := "bookFlight" } } ]

/-! ## Helper lemmas -/

lemma find?_isNone_eq_not_any {α : Type} (p : α → Bool) (l : List α) :
    (l.find? p).isNone = !(l.any p) := by
  induction l with
  | nil => rfl
  | cons x xs ih =>
    cases h : p x <;>
      simp [List.find?_cons, List.any_cons, h, ih]

lemma evictionPass_eq_enumFrom (B : List PersistedFunctionDefinition)
    (maxD : Nat) (l : List PersistedFunctionDefinition) :
    ∀ c : Nat,
      evictionPass B maxD c l =
        ((l.enumFrom c).filter (fun it =>
          decide (it.1 ≤ maxD) || !(isBaseTool B it.2))).map Prod.snd := by
  induction l with
  | nil => intro c; rfl
  | cons f rest ih =>
    intro c
    have hb : (B.find? (fun baseFunc =>
        baseFunc.definition.name == f.definition.name)).isNone =
        !(isBaseTool B f) := by
      rw [find?_isNone_eq_not_any]; rfl
    simp only [evictionPass, hb, List.enumFrom_cons, List.filter_cons]
    cases hcond : (decide (c ≤ maxD) || !(isBaseTool B f)) <;>
      simp [hcond, ih (c + 1)]

lemma filterUnique_eq_dedup :
    ∀ (l : List PersistedFunctionDefinition) (seen : List String),
      filterUniqueByName seen l =
        dedupByNameKeepFirst
          (l.filter (fun f => !(seen.contains f.definition.name))) := by
  intro l
  induction l with
  | nil => intro seen; simp [filterUniqueByName, dedupByNameKeepFirst]
  | cons f rest ih =>
    intro seen
    by_cases h : seen.contains f.definition.name
    · simp only [filterUniqueByName, h, if_true, List.filter_cons,
        Bool.not_true, Bool.false_eq_true, if_false]
      exact ih seen
    · have h' : (seen.contains f.definition.name) = false := by
        simpa using h
      simp only [filterUniqueByName, h', Bool.false_eq_true, if_false,
        List.filter_cons, Bool.not_false, if_true]
      rw [dedupByNameKeepFirst, List.filter_filter, ih (f.definition.name :: seen)]
      have hfilters :
          rest.filter (fun g => !((f.definition.name :: seen).contains g.definition.name)) =
            rest.filter (fun a =>
              a.definition.name != f.definition.name &&
                !(seen.contains a.definition.name)) := by
        apply List.filter_congr
        intro g _
        simp only [List.contains_cons, Bool.not_or]
        rfl
      rw [hfilters]

lemma filterUniqueByName_nil_seen (l : List PersistedFunctionDefinition) :
    filterUniqueByName [] l = dedupByNameKeepFirst l := by
  rw [filterUnique_eq_dedup]
  congr 1
  simp

lemma filterUniqueByName_filter_of_seen (n : String) :
    ∀ (l : List PersistedFunctionDefinition) (seen : List String),
      seen.contains n = true →
      (filterUniqueByName seen l).filter (fun f => f.definition.name == n) = [] := by
  intro l
  induction l with
  | nil => intro seen _; rfl
  | cons f rest ih =>
    intro seen hn
    by_cases h : seen.contains f.definition.name
    · simp only [filterUniqueByName, h, if_true]
      exact ih seen hn
    · have h' : (seen.contains f.definition.name) = false := by simpa using h
      have hfn : (f.definition.name == n) = false := by
        cases hc : (f.definition.name == n) with
        | false => rfl
        | true =>
          exfalso
          have heq : f.definition.name = n := eq_of_beq hc
          rw [heq] at h'
          rw [h'] at hn
          exact Bool.false_ne_true hn
      simp only [filterUniqueByName, h', Bool.false_eq_true, if_false,
        List.filter_cons, hfn]
      exact ih (f.definition.name :: seen)
        (by rw [List.contains_cons, hn, Bool.or_true])

lemma filterUniqueByName_filter_of_not_seen (n : String) :
    ∀ (l : List PersistedFunctionDefinition) (seen : List String),
      seen.contains n = false →
      (filterUniqueByName seen l).filter (fun f => f.definition.name == n) =
        (l.find? (fun f => f.definition.name == n)).toList := by
  intro l
  induction l with
  | nil => intro seen _; rfl
  | cons f rest ih =>
    intro seen hn
    by_cases h : seen.contains f.definition.name
    · have hfn : (f.definition.name == n) = false := by
        cases hc : (f.definition.name == n) with
        | false => rfl
        | true =>
          exfalso
          have heq : f.definition.name = n := eq_of_beq hc
          rw [heq] at h
          rw [hn] at h
          exact Bool.false_ne_true h
      rw [List.find?_cons_of_neg _ (by simp [hfn])]
      simp only [filterUniqueByName, h, if_true]
      exact ih seen hn
    · have h' : (seen.contains f.definition.name) = false := by simpa using h
      cases hp : (f.definition.name == n) with
      | true =>
        have heq : f.definition.name = n := eq_of_beq hp
        have hseen' : ((f.definition.name :: seen).contains n) = true := by
          rw [heq, List.contains_cons, beq_self_eq_true, Bool.true_or]
        rw [List.find?_cons_of_pos _ (by simp [hp])]
        simp only [filterUniqueByName, h', Bool.false_eq_true, if_false,
          List.filter_cons, hp, if_true]
        rw [filterUniqueByName_filter_of_seen n rest _ hseen']
        rfl
      | false =>
        have hnb : (n == f.definition.name) = false := by
          cases hc : (n == f.definition.name) with
          | false => rfl
          | true =>
            exfalso
            have heq2 : n = f.definition.name := eq_of_beq hc
            rw [← heq2] at hp
            simp at hp
        have hseen2 : ((f.definition.name :: seen).contains n) = false := by
          rw [List.contains_cons, hnb, hn, Bool.or_self]
        rw [List.find?_cons_of_neg _ (by simp [hp])]
        simp only [filterUniqueByName, h', Bool.false_eq_true, if_false,
          List.filter_cons, hp]
        exact ih (f.definition.name :: seen) hseen2

/-! ## Claim theorems -/

/-- Claim C1: for every previous-message tool list, base tool list and cap,
`getMaxAvailableFunctionDefinitions` behaves as specified — when the carried
pre-dedup count exceeds the cap, the deduplicated merge is processed in
reverse with a counter starting at 0, a tool being included iff the counter is
at most the cap or the tool is not a base tool, the counter incremented for
every tool regardless of inclusion, and the result reversed back; otherwise
the deduplicated merge is returned unchanged. -/
theorem getMaxAvailableFunctionDefinitions_matches_spec
    (availableFunctionDefinitions baseFunctionDefinitions :
      List PersistedFunctionDefinition) (maxNumDynamicFunctions : Nat) :
    getMaxAvailableFunctionDefinitions availableFunctionDefinitions
        baseFunctionDefinitions maxNumDynamicFunctions =
      computeActiveToolsSpec availableFunctionDefinitions
        baseFunctionDefinitions maxNumDynamicFunctions := by
  simp only [getMaxAvailableFunctionDefinitions, computeActiveToolsSpec,
    mergedUniqueFunctionDefinitions]
  rw [filterUniqueByName_nil_seen]
  by_cases hlen :
      availableFunctionDefinitions.length > maxNumDynamicFunctions
  · rw [if_pos hlen, if_pos hlen, evictionPass_eq_enumFrom,
      List.enum_eq_enumFrom]
  · rw [if_neg hlen, if_neg hlen]

/-- Claim C2 (code bug): at the failing input — four distinct carried dynamic
tools with the default cap of 3 — the active set computed for the turn is
exactly the four dynamic tools, and the reserved catalog-search tool
`find_api_spec_action` is absent, contradicting the base-presence
invariant. -/
theorem findApiSpecAction_absent_at_failing_input :
    starvedBaseInputActiveNames = ["a1", "a2", "a3", "a4"] ∧
      "find_api_spec_action" ∉ starvedBaseInputActiveNames := by
  constructor
  · rfl
  · decide

/-- Claim C3: a tool-call request whose name matches no available function
appends no message and raises no error — the returned conversation equals the
input conversation unchanged. -/
theorem handleOpenAiFunctionCall_unmatched_name_noop
    (responseMessage : OpenAiChatMessage)
    (availableLlmFunctions : List ChatGptLlmFunction)
    (newMessages : List OpenAiChatMessage) (functionCall : FunctionCall)
    (hfc : responseMessage.functionCall = some functionCall)
    (hfind : availableLlmFunctions.find? (fun f =>
        f.persistedFunction.definition.name == functionCall.name) = none) :
    handleOpenAiFunctionCall responseMessage availableLlmFunctions newMessages =
      Except.ok newMessages := by
  simp only [handleOpenAiFunctionCall, hfc]
  simp only [hfind]

/-- Witness for claim C3 at a concrete input: an available set without the
requested name leaves the conversation unchanged. -/
theorem handleOpenAiFunctionCall_unmatched_name_noop_witness :
    ({ role := "assistant", content := "",
        functionCall := some { name := "nope", arguments := "" } } :
          OpenAiChatMessage).functionCall =
        some { name := "nope", arguments := "" } ∧
      ([] : List ChatGptLlmFunction).find? (fun f =>
          f.persistedFunction.definition.name == "nope") = none ∧
      handleOpenAiFunctionCall
          { role := "assistant", content := "",
            functionCall := some { name := "nope", arguments := "" } } [] [] =
        Except.ok [] :=
  ⟨rfl, rfl,
    handleOpenAiFunctionCall_unmatched_name_noop _ _ _ _ rfl rfl⟩

/-- Claim C4: dispatching the reserved catalog-search tool appends exactly the
tool-call-request echo and one function-result message whose content names the
found tools (or reports that nothing was found) and whose attached functions
are the current active set extended by the found definitions. -/
theorem handleOpenAiFunctionCall_search_expands
    (findApiSpecFunctionDefinition : Unk → List PersistedFunctionDefinition)
    (responseMessage : OpenAiChatMessage)
    (availableLlmFunctions : List ChatGptLlmFunction)
    (newMessages : List OpenAiChatMessage) (functionCall : FunctionCall)
    (apiSpecActions : List PersistedFunctionDefinition)
    (hfc : responseMessage.functionCall = some functionCall)
    (hfind : availableLlmFunctions.find? (fun f =>
        f.persistedFunction.definition.name == functionCall.name) =
        some (makeFindApiSpecAction findApiSpecFunctionDefinition))
    (hres : findApiSpecFunctionDefinition (jsonParse functionCall.arguments) =
        apiSpecActions) :
    handleOpenAiFunctionCall responseMessage availableLlmFunctions newMessages =
      Except.ok (newMessages ++ [responseMessage,
        { role := "function"
          name := some "find_api_spec_action"
          content :=
            if apiSpecActions.length != 0 then
              foundApiSpecActionsContent apiSpecActions
            else
              noApiSpecActionContent
          functions :=
            some (availableLlmFunctions.map (fun fxn => fxn.persistedFunction) ++
              apiSpecActions) }]) := by
  simp only [handleOpenAiFunctionCall, hfc]
  simp only [hfind]
  simp only [makeFindApiSpecAction, asPersistedFunctionList, hres]
  simp

/-- Witness for claim C4: the spec's search-expansion scenario — an active set
holding only the base catalog-search tool, with a resolver that answers
`getWeather` and `bookFlight` for the query `travel`, yields a result message
whose attached functions are the base set extended by those two tools. -/
theorem handleOpenAiFunctionCall_search_expands_witness :
    travelSearchResolver (jsonParse "\x7b\x22query\x22:\x22travel\x22\x7d") =
      [ { definition := { name := "getWeather" } },
        { definition := { name := "bookFlight" } } ] ∧
      handleOpenAiFunctionCall
          { role := "assistant", content := "",
            functionCall :=
              some { name := "find_api_spec_action",
                     arguments := "\x7b\x22query\x22:\x22travel\x22\x7d" } }
          [makeFindApiSpecAction travelSearchResolver] [] =
        Except.ok [
          { role := "assistant", content := "",
            functionCall :=
              some { name := "find_api_spec_action",
                     arguments := "\x7b\x22query\x22:\x22travel\x22\x7d" } },
          { role := "function"
            name := some "find_api_spec_action"
            content := foundApiSpecActionsContent
              [ { definition := { name := "getWeather" } },
                { definition := { name := "bookFlight" } } ]
            functions := some
              [ (makeFindApiSpecAction travelSearchResolver).persistedFunction,
                { definition := { name := "getWeather" } },
                { definition := { name := "bookFlight" } } ] } ] :=
  ⟨rfl,
    handleOpenAiFunctionCall_search_expands travelSearchResolver
      { role := "assistant", content := "",
        functionCall :=
          some { name := "find_api_spec_action",
                 arguments := "\x7b\x22query\x22:\x22travel\x22\x7d" } }
      [makeFindApiSpecAction travelSearchResolver] []
      { name := "find_api_spec_action",
        arguments := "\x7b\x22query\x22:\x22travel\x22\x7d" }
      [ { definition := { name := "getWeather" } },
        { definition := { name := "bookFlight" } } ]
      rfl rfl rfl⟩

/-- Claim C5: dispatching a matched dynamic HTTP tool hands the model-supplied
argument payload, the static request context and the credentials to the
downstream HTTP call built from the tool definition's verb and path, and
appends exactly the tool-call-request echo and one function-result message
whose content is the response (serialized to text when not already a string)
and whose attached functions equal the current active set; the downstream call
receives the parsed payload merged with the static context and credentials. -/
theorem handleOpenAiFunctionCall_dynamic_http
    (transport : HttpRequest → Unk)
    (persistedFunctionDefinition : PersistedFunctionDefinition)
    (staticHttpRequestArgs : HttpRequestArgs)
    (apiCredentials : HttpApiCredentials)
    (responseMessage : OpenAiChatMessage)
    (availableLlmFunctions : List ChatGptLlmFunction)
    (newMessages : List OpenAiChatMessage) (functionCall : FunctionCall)
    (hfc : responseMessage.functionCall = some functionCall)
    (hfind : availableLlmFunctions.find? (fun f =>
        f.persistedFunction.definition.name == functionCall.name) =
        some (makeDynamicHttpLlmFunctionFromFunctionDefinition transport
          persistedFunctionDefinition staticHttpRequestArgs apiCredentials)) :
    handleOpenAiFunctionCall responseMessage availableLlmFunctions newMessages =
      Except.ok (newMessages ++ [responseMessage,
        { role := "function"
          name := some persistedFunctionDefinition.definition.name
          content := functionResponseContent
            (executeHttpApiRequest transport
              persistedFunctionDefinition.httpVerb
              persistedFunctionDefinition.path staticHttpRequestArgs
              (Unk.str functionCall.arguments) apiCredentials)
          functions :=
            some (availableLlmFunctions.map (fun f => f.persistedFunction)) }]) ∧
      executeHttpApiRequest transport persistedFunctionDefinition.httpVerb
          persistedFunctionDefinition.path staticHttpRequestArgs
          (Unk.str functionCall.arguments) apiCredentials =
        transport
          { httpVerb := persistedFunctionDefinition.httpVerb
            resourcePath := persistedFunctionDefinition.path
            staticHttpRequestArgs := staticHttpRequestArgs
            dynamicHttpRequestArgs :=
              parseArgumentPayload (Unk.str functionCall.arguments)
            apiCredentials := apiCredentials } := by
  constructor
  · simp only [handleOpenAiFunctionCall, hfc]
    simp only [hfind]
    rfl
  · rfl

/-- Witness for claim C5 at a concrete input: a `GET /weather` dynamic tool
whose transport answers with plain text appends the echo and a result carrying
that text and the unchanged active set. -/
theorem handleOpenAiFunctionCall_dynamic_http_witness :
    handleOpenAiFunctionCall
        { role := "assistant", content := "",
          functionCall := some { name := "getWeather", arguments := "\x7b\x7d" } }
        [makeDynamicHttpLlmFunctionFromFunctionDefinition
          (fun r => Unk.str ("called " ++ r.resourcePath))
          { definition := { name := "getWeather" }, httpVerb := "GET",
            path := "/weather" } {} {}] [] =
      Except.ok [
        { role := "assistant", content := "",
          functionCall := some { name := "getWeather", arguments := "\x7b\x7d" } },
        { role := "function"
          name := some "getWeather"
          content := "called /weather"
          functions :=
            some [ { definition := { name := "getWeather" },
                     httpVerb := "GET", path := "/weather" } ] } ] :=
  (handleOpenAiFunctionCall_dynamic_http
    (fun r => Unk.str ("called " ++ r.resourcePath))
    { definition := { name := "getWeather" }, httpVerb := "GET",
      path := "/weather" } {} {}
    { role := "assistant", content := "",
      functionCall := some { name := "getWeather", arguments := "\x7b\x7d" } }
    [makeDynamicHttpLlmFunctionFromFunctionDefinition
      (fun r => Unk.str ("called " ++ r.resourcePath))
      { definition := { name := "getWeather" }, httpVerb := "GET",
        path := "/weather" } {} {}] []
    { name := "getWeather", arguments := "\x7b\x7d" } rfl rfl).1

/-- Claim C6: when the base set and the carried dynamic set share a tool name,
the merged deduplicated active set contains exactly one tool of that name, and
it is the occurrence from the base set (first occurrence of each name wins,
base tools listed first). -/
theorem mergedUniqueFunctionDefinitions_base_wins
    (B D : List PersistedFunctionDefinition) (n : String)
    (b : PersistedFunctionDefinition)
    (hB : B.find? (fun f => f.definition.name == n) = some b)
    (hD : ∃ d ∈ D, d.definition.name = n) :
    (mergedUniqueFunctionDefinitions B D).filter
        (fun f => f.definition.name == n) = [b] ∧ b ∈ B := by
  constructor
  · rw [mergedUniqueFunctionDefinitions,
      filterUniqueByName_filter_of_not_seen n (B ++ D) [] rfl,
      List.find?_append, hB]
    rfl
  · exact List.mem_of_find?_eq_some hB

/-- Witness for claim C6 at a concrete input: base and carried sets sharing
the name `shared` merge to a set holding only the base occurrence of it. -/
theorem mergedUniqueFunctionDefinitions_base_wins_witness :
    ([ { definition := { name := "shared", description := "base" } } ] :
        List PersistedFunctionDefinition).find?
        (fun f => f.definition.name == "shared") =
      some { definition := { name := "shared", description := "base" } } ∧
    (∃ d ∈ ([ { definition := { name := "shared", description := "dynamic" } } ] :
        List PersistedFunctionDefinition), d.definition.name = "shared") ∧
    ((mergedUniqueFunctionDefinitions
        [ { definition := { name := "shared", description := "base" } } ]
        [ { definition := { name := "shared", description := "dynamic" } } ]).filter
        (fun f => f.definition.name == "shared") =
      [ { definition := { name := "shared", description := "base" } } ] ∧
      ({ definition := { name := "shared", description := "base" } } :
          PersistedFunctionDefinition) ∈
        [ ({ definition := { name := "shared", description := "base" } } :
            PersistedFunctionDefinition) ]) :=
  ⟨rfl,
    ⟨{ definition := { name := "shared", description := "dynamic" } },
      List.mem_singleton.mpr rfl, rfl⟩,
    mergedUniqueFunctionDefinitions_base_wins
      [ { definition := { name := "shared", description := "base" } } ]
      [ { definition := { name := "shared", description := "dynamic" } } ]
      "shared" { definition := { name := "shared", description := "base" } }
      rfl
      ⟨{ definition := { name := "shared", description := "dynamic" } },
        List.mem_singleton.mpr rfl, rfl⟩⟩

/-- Claim C7 counterexample: a provided-but-empty new user query is falsy in
JavaScript, so the rewrite appends no trailing user message — the rewritten
conversation consists of the system message alone. -/
theorem updateConversation_empty_query_appends_nothing :
    (updateConversationWithNewSystemPrompt "p" [] [] (some "") none).map
        (fun m => m.role) = ["system"] := by
  rfl

/-- Claim C7 (amended): rewrite returns the new system message followed by
exactly the non-system prior messages in their original order, with one
trailing user message appended iff the provided query is non-empty; the
embedding is pure, so the prior list is never mutated. -/
theorem updateConversationWithNewSystemPrompt_shape
    (baseSystemPrompt : String)
    (availableLlmFunctions : List ChatGptLlmFunction)
    (messages : List OpenAiChatMessage) (query : Option String)
    (staticHttpRequestArgs : Option HttpRequestArgs) :
    updateConversationWithNewSystemPrompt baseSystemPrompt availableLlmFunctions
        messages query staticHttpRequestArgs =
      { role := "system"
        content := makeSystemPrompt baseSystemPrompt availableLlmFunctions
          staticHttpRequestArgs } ::
        (messages.filter (fun message => message.role != "system") ++
          (match query with
           | some q =>
             if q != "" then [({ role := "user", content := q } : OpenAiChatMessage)]
             else []
           | none => [])) := by
  simp only [updateConversationWithNewSystemPrompt]
  cases query with
  | none => simp
  | some q =>
    cases hq : (q != "") <;> simp [hq]

/-- Claim C8: when the active set contains no dynamic tool, the composed
system prompt is the base prompt concatenated only with the optional context
block — no tool-usage instruction block appears. -/
theorem makeSystemPrompt_no_dynamic
    (baseSystemPrompt : String) (currentFunctions : List ChatGptLlmFunction)
    (staticHttpRequestArgs : Option HttpRequestArgs)
    (hnodyn : currentFunctions.filter (fun f => f.dynamic) = []) :
    makeSystemPrompt baseSystemPrompt currentFunctions staticHttpRequestArgs =
      (match staticHttpRequestArgs with
       | some args =>
         baseSystemPrompt ++ "\n" ++ makeUserSystemPromptContext args
       | none => baseSystemPrompt) := by
  simp only [makeSystemPrompt, hnodyn]
  cases staticHttpRequestArgs <;> simp

/-- Witness for claim C8 at a concrete input: an active set holding only the
(non-dynamic) base catalog-search tool composes the base prompt plus the
context block alone. -/
theorem makeSystemPrompt_no_dynamic_witness :
    ([makeFindApiSpecAction travelSearchResolver].filter (fun f => f.dynamic)) =
        [] ∧
      makeSystemPrompt "You are helpful."
          [makeFindApiSpecAction travelSearchResolver]
          (some { headers := some (Unk.obj "orgId: 5") }) =
        "You are helpful." ++ "\n" ++
          makeUserSystemPromptContext { headers := some (Unk.obj "orgId: 5") } :=
  ⟨rfl,
    makeSystemPrompt_no_dynamic "You are helpful."
      [makeFindApiSpecAction travelSearchResolver]
      (some { headers := some (Unk.obj "orgId: 5") }) rfl⟩

/-- Claim C9: a response with zero choices, or whose first choice carries no
message, fails with the no-response error (the embedding performs no retry —
the `Except.error` is the turn's final outcome); a usable first choice yields
exactly that choice's message. -/
theorem getChatMessageFromOpenAiResponse_spec :
    (getChatMessageFromOpenAiResponse { choices := [] } =
        Except.error "No message returned from OpenAI API") ∧
      (∀ rest : List ChatCompletionChoice,
        getChatMessageFromOpenAiResponse
            { choices := { message := none } :: rest } =
          Except.error "No message returned from OpenAI API") ∧
      (∀ (message : OpenAiChatMessage) (rest : List ChatCompletionChoice),
        getChatMessageFromOpenAiResponse
            { choices := { message := some message } :: rest } =
          Except.ok message) :=
  ⟨rfl, fun _ => rfl, fun _ _ => rfl⟩

/-- Claim C10: the available-functions computation of `answerAwaited` reads
the carried tool list solely from the final message of the conversation (its
`functions` field, defaulting to the empty list), and for the empty
conversation the out-of-bounds last-element access makes the total embedding
return `none` — non-emptiness of the conversation is the precondition under
which that branch is unreachable. -/
theorem answerAwaitedAvailableLlmFunctions_last_message :
    (∀ (transport : HttpRequest → Unk)
        (baseFunctions : List ChatGptLlmFunction)
        (maxNumDynamicFunctions : Nat)
        (staticHttpRequestArgs : Option HttpRequestArgs)
        (apiCredentials : HttpApiCredentials),
      answerAwaitedAvailableLlmFunctions transport baseFunctions
        maxNumDynamicFunctions staticHttpRequestArgs apiCredentials [] =
        none) ∧
      (∀ (transport : HttpRequest → Unk)
          (baseFunctions : List ChatGptLlmFunction)
          (maxNumDynamicFunctions : Nat)
          (staticHttpRequestArgs : Option HttpRequestArgs)
          (apiCredentials : HttpApiCredentials)
          (messages : List OpenAiChatMessage)
          (lastMessage : OpenAiChatMessage),
        answerAwaitedAvailableLlmFunctions transport baseFunctions
            maxNumDynamicFunctions staticHttpRequestArgs apiCredentials
            (messages ++ [lastMessage]) =
          some (makeAvailableLlmFunctionsFromFunctionDefinitions transport
            (lastMessage.functions.getD []) baseFunctions
            (staticHttpRequestArgs.getD {}) maxNumDynamicFunctions
            apiCredentials)) := by
  constructor
  · intro _ _ _ _ _
    rfl
  · intro transport baseFunctions maxNumDynamicFunctions staticHttpRequestArgs
      apiCredentials messages lastMessage
    simp only [answerAwaitedAvailableLlmFunctions, List.getLast?_concat]

end ChatLlm
